import Mathlib

/-!
Verification of the sms-gateway core: a shallow embedding of the GSM modem
protocol engine (`internal/modem/modem.go`), the simulator variant
(`internal/modem/simulator.go`), and the job queue (`internal/queue/queue.go`),
together with theorems settling the spec's claims about them.

The transport (serial port) is modelled as an oracle: a record of the response
text each command's polling loop accumulated, plus booleans for whether each
write to the port succeeded.  Go's `regexp` patterns used by the code are
embedded as explicit scanning functions over `List Char` with leftmost-match
semantics.  The job queue's pointer graph is modelled with an explicit heap
(`List Job` indexed by address), a store mapping job IDs to addresses, the
buffered channel as a FIFO list of addresses, and the single worker as an
optional in-flight address.
-/

namespace SmsGateway

/-! ## String scanning utilities (Go `strings` / `regexp` behaviour) -/

/-- Go `strings.Contains`: does `hay` contain `needle` as a substring?
(`needle = []` is always contained, as in Go). -/
def containsSub (needle : List Char) : List Char → Bool
  | [] => needle.isEmpty
  | c :: t => needle.isPrefixOf (c :: t) || containsSub needle t

/-- `strings.Contains` on `String`s. -/
def containsStr (s sub : String) : Bool := containsSub sub.data s.data

/-- Decimal value of a digit run, as Go `strconv.Atoi` computes it. -/
def natOfDigits (l : List Char) : Nat :=
  l.foldl (fun acc c => acc * 10 + (c.toNat - 48)) 0

/-- Go `strconv.Atoi` applied to a digit run captured by a regexp: succeeds
with the decimal value unless it overflows a 64-bit `int`. -/
def goAtoi (run : List Char) : Option Nat :=
  if natOfDigits run ≤ 9223372036854775807 then some (natOfDigits run) else none

/-- First (leftmost) match of the Go pattern `\+CMGS: (\d+)`: the captured
digit run.  At each position the literal `"+CMGS: "` must match, immediately
followed by at least one digit; the greedy `\d+` captures the maximal run. -/
def findCMGS : List Char → Option (List Char)
  | [] => none
  | c :: t =>
    if ("+CMGS: ".data).isPrefixOf (c :: t) then
      let run := ((c :: t).drop 7).takeWhile Char.isDigit
      if run.isEmpty then findCMGS t else some run
    else findCMGS t

/-- First (leftmost) match of the Go pattern `\+CSQ: (\d+),`: the captured
digit run.  The greedy `\d+` must be followed by a comma; since every shorter
backtracked run ends just before another digit, the pattern matches at a
position exactly when the maximal digit run is non-empty and the character
after it is a comma. -/
def findCSQ : List Char → Option (List Char)
  | [] => none
  | c :: t =>
    if ("+CSQ: ".data).isPrefixOf (c :: t) then
      let rest := (c :: t).drop 6
      let run := rest.takeWhile Char.isDigit
      if run.isEmpty ∨ (rest.drop run.length).head? ≠ some ',' then findCSQ t
      else some run
    else findCSQ t

/-- First (leftmost) match of the Go pattern `\+CREG: \d,(\d)`: the captured
second digit (the registration status). -/
def findCREG : List Char → Option Char
  | [] => none
  | c :: t =>
    if ("+CREG: ".data).isPrefixOf (c :: t) then
      match (c :: t).drop 7 with
      | d1 :: c2 :: d2 :: _ =>
        if d1.isDigit ∧ c2 = ',' ∧ d2.isDigit then some d2 else findCREG t
      | _ => findCREG t
    else findCREG t

/-- Go `unicode.IsSpace` restricted to the ASCII spaces `strings.TrimSpace`
removes from modem responses. -/
def isGoSpace (c : Char) : Bool :=
  c = ' ' || c = '\t' || c = '\n' || c = '\x0b' || c = '\x0c' || c = '\r'

/-- Go `strings.TrimSpace`. -/
def goTrim (s : String) : String :=
  String.mk (((s.data.dropWhile isGoSpace).reverse.dropWhile isGoSpace).reverse)

/-- Go `strings.HasPrefix line "AT"` on a trimmed line. -/
def hasATMark (s : String) : Bool := ("AT".data).isPrefixOf s.data

/-- The scan inside `parseSimpleResponse`: first trimmed line that is
non-empty, not `"OK"`, and not an echoed `AT` command. -/
def firstInfoLine : List String → String
  | [] => ""
  | l :: rest =>
    let t := goTrim l
    if t = "" ∨ t = "OK" ∨ hasATMark t then firstInfoLine rest else t

/-- `parseSimpleResponse` from `modem.go`: extracts the first non-empty,
non-command, non-OK line from an AT response. -/
def parseSimpleResponse (resp : String) : String :=
  firstInfoLine (resp.splitOn "\n")

/-! ## Modem data model (`modem.go`) -/

/-- `Status` from `modem.go`.  Go zero values are the field defaults. -/
structure Status where
  connected : Bool := false
  networkRegistered : Bool := false
  signalStrength : Nat := 0
  signalStrengthDesc : String := ""
  manufacturer : String := ""
  model : String := ""
deriving DecidableEq

/-- `SendResult` from `modem.go`.  Go zero values are the field defaults;
an empty string stands for an omitted optional field. -/
structure SendResult where
  success : Bool := false
  messageReference : String := ""
  error : String := ""
deriving DecidableEq

/-- The signal-strength bucketing `switch` in `GetStatus`. -/
def signalDesc (v : Nat) : String :=
  if v = 99 then "unknown"
  else if v < 10 then "weak"
  else if v < 20 then "fair"
  else if v < 30 then "good"
  else "excellent"

/-! ## `GetStatus` (hardware variant)

The transport oracle records, per command, `none` when the write to the port
failed (Go `sendAT` returns a non-nil error) and `some r` when the write
succeeded and the polling loop accumulated response text `r`. -/

structure StatusPort where
  openOk : Bool
  atResp : Option String
  cgmiResp : Option String
  cgmmResp : Option String
  cregResp : Option String
  csqResp : Option String
deriving DecidableEq

/-- The `AT+CSQ` extraction: regexp match then `Atoi`, `none` when the write
failed, the pattern did not match, or the value overflowed. -/
def csqExtract (r? : Option String) : Option Nat :=
  match r? with
  | none => none
  | some r =>
    match findCSQ r.data with
    | none => none
    | some run => goAtoi run

/-- The `AT+CREG?` extraction: the captured status digit, if any. -/
def cregExtract (r? : Option String) : Option Char :=
  match r? with
  | none => none
  | some r => findCREG r.data

/-- A best-effort identification query (`AT+CGMI` / `AT+CGMM`): parsed only
when the write succeeded and the response contains `"OK"`. -/
def idQueryField (r? : Option String) : String :=
  match r? with
  | none => ""
  | some r => if containsStr r "OK" then parseSimpleResponse r else ""

/-- `GSMModem.GetStatus` from `modem.go`, as a function of the transport
oracle.  Returns the `Status` and the Go error (as `Option String`). -/
def getStatus (p : StatusPort) : Status × Option String :=
  if !p.openOk then ({}, some "modem not accessible")
  else
    match p.atResp with
    | none => ({}, some "modem not responding")
    | some r =>
      if !containsStr r "OK" then ({}, some "modem not responding")
      else
        let reg : Bool :=
          match cregExtract p.cregResp with
          | some d => d = '1' || d = '5'
          | none => false
        let sig : Nat × String :=
          match csqExtract p.csqResp with
          | some v => (v, signalDesc v)
          | none => (0, "")
        ({ connected := true
           networkRegistered := reg
           signalStrength := sig.1
           signalStrengthDesc := sig.2
           manufacturer := idQueryField p.cgmiResp
           model := idQueryField p.cgmmResp }, none)

/-! ## `SendSMS` (hardware variant) -/

/-- Transport oracle for one `SendSMS` call: per-step write-success flags and
the response text each polling loop accumulated.  The best-effort steps 3–4
(`AT+CSCS`, `AT+CSMP`) discard both their error and their response, so no
oracle fields are needed for them. -/
structure SmsPort where
  openOk : Bool
  atWriteOk : Bool
  atResp : String
  cmgfWriteOk : Bool
  cmgfResp : String
  cregWriteOk : Bool
  cregResp : String
  cmgsWriteOk : Bool
  promptResp : String
  bodyWriteOk : Bool
  finalResp : String
deriving DecidableEq

/-- Outcome of a modelled `SendSMS` call: the `SendResult`, the Go error, and
an I/O trace (whether `openPort` was reached, and the writes attempted). -/
structure SendOutcome where
  result : SendResult
  err : Option String
  openAttempted : Bool
  writes : List String
deriving DecidableEq

/-- The result classification at the end of `SendSMS` (lines 260–283 of
`modem.go`), as a function of the final accumulated response text: `+CMGS`
reference, else `"OK"`, else `"ERROR"`, else the ambiguous-outcome path. -/
def classifyFinal (finalResp : String) : SendResult × Option String :=
  match findCMGS finalResp.data with
  | some run => ({ success := true, messageReference := String.mk run }, none)
  | none =>
    if containsStr finalResp "OK" then ({ success := true }, none)
    else if containsStr finalResp "ERROR" then
      ({ error := "modem returned an error" },
       some ("modem returned an error: " ++ finalResp))
    else
      ({ success := true, error := "uncertain result — check phone for delivery" },
       none)

/-- Step 5 of `SendSMS`: fatal exactly when the `AT+CREG?` write succeeded,
the pattern matched, and the captured digit is neither `'1'` nor `'5'`. -/
def cregFatal (writeOk : Bool) (resp : String) : Bool :=
  writeOk && (match findCREG resp.data with
    | some d => !(d = '1' || d = '5')
    | none => false)

/-- The writes performed by `SendSMS` up to and including step 5. -/
def writesThroughCreg : List String :=
  ["AT", "AT+CMGF=1", "AT+CSCS=\"GSM\"", "AT+CSMP=17,167,0,0", "AT+CREG?"]

/-- `GSMModem.SendSMS` from `modem.go`, as a function of the transport
oracle. -/
def gsmSendSMS (p : SmsPort) (phone message : String) : SendOutcome :=
  if phone = "" then ⟨{}, some "phone number is required", false, []⟩
  else if message = "" then ⟨{}, some "message is required", false, []⟩
  else if !p.openOk then
    ⟨{ error := "modem not accessible" }, some "modem not accessible", true, []⟩
  else if !(p.atWriteOk && containsStr p.atResp "OK") then
    ⟨{ error := "modem not responding" }, some "modem not responding", true, ["AT"]⟩
  else if !(p.cmgfWriteOk && containsStr p.cmgfResp "OK") then
    ⟨{ error := "failed to set SMS text mode" }, some "failed to set SMS text mode",
     true, ["AT", "AT+CMGF=1"]⟩
  else if cregFatal p.cregWriteOk p.cregResp then
    ⟨{ error := "not registered on network" }, some "not registered on network",
     true, writesThroughCreg⟩
  else if !p.cmgsWriteOk then
    ⟨{ error := "failed to initiate SMS" }, some "failed to initiate SMS",
     true, writesThroughCreg ++ ["AT+CMGS=\"" ++ phone ++ "\""]⟩
  else if containsStr p.promptResp "ERROR" then
    ⟨{ error := "modem rejected the send command" },
     some ("modem rejected AT+CMGS: " ++ p.promptResp),
     true, writesThroughCreg ++ ["AT+CMGS=\"" ++ phone ++ "\""]⟩
  else if !p.bodyWriteOk then
    ⟨{ error := "failed to write message body" }, some "failed to write message body",
     true, writesThroughCreg ++ ["AT+CMGS=\"" ++ phone ++ "\"", message ++ "\x1a"]⟩
  else
    ⟨(classifyFinal p.finalResp).1, (classifyFinal p.finalResp).2,
     true, writesThroughCreg ++ ["AT+CMGS=\"" ++ phone ++ "\"", message ++ "\x1a"]⟩

/-! ## Simulator variant (`simulator.go`) -/

/-- `SimulatorModem.GetStatus`: a fixed fully-healthy snapshot. -/
def simGetStatus : Status :=
  { connected := true, networkRegistered := true, signalStrength := 31,
    signalStrengthDesc := "excellent", manufacturer := "Simulator",
    model := "Virtual Modem" }

/-- `SimulatorModem.SendSMS` as a function of the per-instance message
reference counter: returns the `SendResult`, the Go error, and the new
counter value.  (The randomized latency sleep has no observable effect on
the result and is not modelled.) -/
def simSendSMS (msgRef : Nat) (phone message : String) :
    SendResult × Option String × Nat :=
  if phone = "" then ({}, some "phone number is required", msgRef)
  else if message = "" then ({}, some "message is required", msgRef)
  else ({ success := true, messageReference := toString (msgRef + 1) },
        none, msgRef + 1)

/-! ## Job queue (`queue.go`)

Go pointers are modelled with an explicit heap: a `List Job` whose indices
are addresses.  The `store` maps job IDs to addresses (Go's
`map[string]*Job`), the buffered channel `jobs` is a FIFO list of addresses,
and the single worker goroutine is `worker : Option Nat` — the address of the
job currently in flight, if any. -/

/-- `JobStatus` from `queue.go`. -/
inductive JobStatus where
  | queued
  | sending
  | sent
  | failed
deriving DecidableEq

/-- Is the status terminal (`sent` or `failed`)? -/
def isTerminal : JobStatus → Bool
  | .sent => true
  | .failed => true
  | _ => false

/-- `Job` from `queue.go`; timestamps are a logical `Nat` clock. -/
structure Job where
  id : String
  phone : String
  message : String
  status : JobStatus
  result : Option SendResult
  error : String
  createdAt : Nat
  updatedAt : Nat
deriving DecidableEq

/-- The whole queue state: heap of job objects, ID→address store, buffered
channel contents, channel capacity, and the worker's in-flight address. -/
structure QState where
  heap : List Job
  store : List (String × Nat)
  jobs : List Nat
  capacity : Nat
  worker : Option Nat
deriving DecidableEq

/-- Go map assignment `store[k] = v`: replace the entry if the key is
present, else append it. -/
def storeSet (st : List (String × Nat)) (k : String) (v : Nat) :
    List (String × Nat) :=
  if (st.find? (fun q => q.1 = k)).isSome then
    st.map (fun q => if q.1 = k then (k, v) else q)
  else st ++ [(k, v)]

/-- Go map deletion `delete(store, k)`. -/
def storeDel (st : List (String × Nat)) (k : String) : List (String × Nat) :=
  st.filter (fun q => q.1 ≠ k)

/-- Go map read `store[k]`. -/
def storeFind (st : List (String × Nat)) (k : String) : Option Nat :=
  (st.find? (fun q => q.1 = k)).map (·.2)

/-- In-place mutation of the heap object at address `a`. -/
def heapUpdate (h : List Job) (a : Nat) (f : Job → Job) : List Job :=
  match h[a]? with
  | some j => h.set a (f j)
  | none => h

/-- The `Job` literal constructed at the top of `Enqueue`. -/
def newJob (phone message id : String) (t : Nat) : Job :=
  { id := id, phone := phone, message := message, status := .queued,
    result := none, error := "", createdAt := t, updatedAt := t }

/-- The empty queue produced by `New` (before any operation runs). -/
def initQ (capacity : Nat) : QState :=
  { heap := [], store := [], jobs := [], capacity := capacity, worker := none }

/-- `Queue.Enqueue` from `queue.go`: build the job (`id` is the value
`generateID` returned, `t` the current time), insert it into the store, then
try a non-blocking send on the buffered channel; on a full channel delete the
store entry and reject.  Returns the new state, the returned `*Job`, and the
returned `bool`. -/
def enqueue (s : QState) (phone message id : String) (t : Nat) :
    QState × Option Job × Bool :=
  let job := newJob phone message id t
  let addr := s.heap.length
  let heap1 := s.heap ++ [job]
  let store1 := storeSet s.store id addr
  if s.jobs.length < s.capacity then
    ({ s with heap := heap1, store := store1, jobs := s.jobs ++ [addr] },
     some job, true)
  else
    ({ s with heap := heap1, store := storeDel store1 id }, none, false)

/-- The first half of `Queue.process` fused with the worker's channel
receive: pop the channel's front job and mark it `sending` under the lock.
No other actor mutates a job object between the receive and this write. -/
def workerStart (s : QState) (t : Nat) : QState :=
  match s.jobs with
  | [] => s
  | a :: rest =>
    { s with
      jobs := rest
      worker := some a
      heap := heapUpdate s.heap a
        (fun j => { j with status := .sending, updatedAt := t }) }

/-- The second half of `Queue.process`: after `modem.SendSMS` returns result
`res` and error `err`, record the result and the terminal status under the
lock. -/
def workerFinish (s : QState) (res : SendResult) (err : Option String)
    (t : Nat) : QState :=
  match s.worker with
  | none => s
  | some a =>
    { s with
      worker := none
      heap := heapUpdate s.heap a
        (fun j =>
          { j with
            result := some res
            updatedAt := t
            status := if err.isSome then .failed else .sent
            error := match err with | some e => e | none => j.error }) }

/-- `Queue.Get` from `queue.go`: look up the job, return a copy, and delete
the store entry when the status is terminal. -/
def getJob (s : QState) (id : String) : QState × Option Job :=
  match storeFind s.store id with
  | none => (s, none)
  | some a =>
    match s.heap[a]? with
    | none => (s, none)
    | some j =>
      (if isTerminal j.status then { s with store := storeDel s.store id } else s,
       some j)

/-- One pass of the `cleanup` ticker body: delete every store entry whose job
is terminal and whose `UpdatedAt` precedes the cutoff (`now - jobRetention`). -/
def cleanupPass (s : QState) (cutoff : Nat) : QState :=
  { s with store := s.store.filter (fun q =>
      match s.heap[q.2]? with
      | some j => !(isTerminal j.status && decide (j.updatedAt < cutoff))
      | none => true) }

/-- `Queue.Pending`: the channel's current length. -/
def pendingCount (s : QState) : Nat := s.jobs.length

/-- One step of the queue system: an `Enqueue` call (with the ID the random
generator produced and the wall-clock time as parameters), the worker picking
up the front job, the worker finishing the in-flight job with the modem's
result, a `Get` call, or one cleanup pass. -/
inductive QStep : QState → QState → Prop where
  | enq (s : QState) (phone message id : String) (t : Nat) :
      QStep s (enqueue s phone message id t).1
  | start (s : QState) (t : Nat) : s.worker = none → QStep s (workerStart s t)
  | finish (s : QState) (res : SendResult) (err : Option String) (t : Nat) :
      QStep s (workerFinish s res err t)
  | getStep (s : QState) (id : String) : QStep s (getJob s id).1
  | clean (s : QState) (cutoff : Nat) : QStep s (cleanupPass s cutoff)

/-- States reachable from a freshly constructed queue. -/
inductive Reachable : QState → Prop where
  | init (capacity : Nat) : Reachable (initQ capacity)
  | step (s s' : QState) : Reachable s → QStep s s' → Reachable s'

/-- The queue's inductive invariant: buffered addresses point to `queued`
jobs, the in-flight address points to a `sending` job and is not buffered,
the buffer has no duplicates, store addresses are in range, and every heap
object carries a result exactly when its status is terminal. -/
structure Inv (s : QState) : Prop where
  buf_ok : ∀ a ∈ s.jobs, ∃ j, s.heap[a]? = some j ∧ j.status = .queued
  worker_ok : ∀ a, s.worker = some a →
    ∃ j, s.heap[a]? = some j ∧ j.status = .sending
  worker_not_buf : ∀ a, s.worker = some a → a ∉ s.jobs
  buf_nodup : s.jobs.Nodup
  store_ok : ∀ q ∈ s.store, q.2 < s.heap.length
  result_ok : ∀ (a : Nat) (j : Job), s.heap[a]? = some j →
    (j.result.isSome = true ↔ (j.status = .sent ∨ j.status = .failed))

/-! ## Concrete example inputs and states (used to instantiate theorems) -/

/-- A transport oracle for a fully successful send. -/
def examplePort : SmsPort :=
  { openOk := true, atWriteOk := true, atResp := "OK", cmgfWriteOk := true,
    cmgfResp := "OK", cregWriteOk := true, cregResp := "+CREG: 0,1",
    cmgsWriteOk := true, promptResp := "> ", bodyWriteOk := true,
    finalResp := "+CMGS: 7\r\nOK" }

/-- A transport oracle for the ambiguous outcome: the 30-second poll after the
message body produced no terminal marker at all. -/
def ambiguousPort : SmsPort := { examplePort with finalResp := "" }

/-- A status oracle whose `AT+CSQ` response carries no parseable signal
value. -/
def badCsqPort : StatusPort :=
  { openOk := true, atResp := some "OK", cgmiResp := none, cgmmResp := none,
    cregResp := none, csqResp := some "garbage OK" }

/-- A status oracle reporting signal quality 25. -/
def goodCsqPort : StatusPort :=
  { openOk := true, atResp := some "OK", cgmiResp := none, cgmmResp := none,
    cregResp := some "+CREG: 0,1\r\nOK", csqResp := some "+CSQ: 25,99\r\nOK" }

/-- A queue of capacity 2 holding one admitted job with ID `"x"`. -/
def exFreeState : QState := (enqueue (initQ 2) "p" "m" "x" 0).1

/-- A queue of capacity 1 whose single buffer slot is taken by the job with
ID `"x"`. -/
def exFullState : QState := (enqueue (initQ 1) "p" "m" "x" 0).1

/-- `exFullState` after the worker picked up job `"x"` and finished it
successfully: the job is terminal (`sent`) with a result attached. -/
def exDoneState : QState :=
  workerFinish (workerStart exFullState 1) { success := true } none 2

/-- The job object stored by `exFreeState`. -/
def exJobQ : Job := newJob "p" "m" "x" 0

/-- `exJobQ` after the worker marked it `sending` at time 1. -/
def exJobS : Job := { exJobQ with status := .sending, updatedAt := 1 }

/-- The terminal job object stored by `exDoneState`. -/
def exDoneJob : Job :=
  { id := "x", phone := "p", message := "m", status := .sent,
    result := some { success := true }, error := "", createdAt := 0,
    updatedAt := 2 }

/-! ## Lemmas about the scanning functions -/

/-- A captured `+CMGS` reference is a non-empty run of digits. -/
theorem findCMGS_digits (l run : List Char) (h : findCMGS l = some run) :
    run ≠ [] ∧ run.all Char.isDigit = true := by
  induction l with
  | nil => simp [findCMGS] at h
  | cons c t ih =>
    simp only [findCMGS] at h
    split at h
    · split at h
      · exact ih h
      · rename_i hne
        injection h with h
        subst h
        refine ⟨by simpa [List.isEmpty_iff] using hne, ?_⟩
        rw [List.all_eq_true]
        intro x hx
        exact List.mem_takeWhile_imp hx
    · exact ih h

/-- The error path and the success flag of `classifyFinal` agree. -/
theorem classifyFinal_err_iff (r : String) :
    (classifyFinal r).2 = none ↔ (classifyFinal r).1.success = true := by
  unfold classifyFinal
  rcases hm : findCMGS r.data with _ | run
  · simp only []
    split_ifs <;> simp
  · simp

/-! ## C1: final-response classification in `SendSMS` -/

/-- C1: after the message body is written, the final accumulated response is
classified in priority order: a numeric reference captured by
`\+CMGS: (\d+)` gives success with that (non-empty, all-digit) reference;
otherwise a response containing `"OK"` gives success with no reference;
otherwise a response containing `"ERROR"` gives failure with a non-empty
error string; otherwise (no marker matched) success with a non-empty
warning string. -/
theorem c1_final_classification (resp : String) :
    (∀ run, findCMGS resp.data = some run →
      (classifyFinal resp).1.success = true ∧
      (classifyFinal resp).1.messageReference = String.mk run ∧
      run ≠ [] ∧ run.all Char.isDigit = true) ∧
    (findCMGS resp.data = none → containsStr resp "OK" = true →
      (classifyFinal resp).1.success = true ∧
      (classifyFinal resp).1.messageReference = "") ∧
    (findCMGS resp.data = none → containsStr resp "OK" = false →
      containsStr resp "ERROR" = true →
      (classifyFinal resp).1.success = false ∧
      (classifyFinal resp).1.error ≠ "") ∧
    (findCMGS resp.data = none → containsStr resp "OK" = false →
      containsStr resp "ERROR" = false →
      (classifyFinal resp).1.success = true ∧
      (classifyFinal resp).1.error ≠ "") := by
  refine ⟨?_, ?_, ?_, ?_⟩
  · intro run h
    have hd := findCMGS_digits resp.data run h
    simp [classifyFinal, h, hd]
  · intro h hOK
    simp [classifyFinal, h, hOK]
  · intro h hOK hERR
    simp [classifyFinal, h, hOK, hERR]
  · intro h hOK hERR
    simp [classifyFinal, h, hOK, hERR]

/-- C1 witness: the theorem applied to the spec's example response
`"+CMGS: 42\r\nOK"` and to the three marker-free/OK/ERROR responses. -/
theorem c1_witness :
    ((classifyFinal "+CMGS: 42\r\nOK").1.success = true ∧
     (classifyFinal "+CMGS: 42\r\nOK").1.messageReference = "42") ∧
    ((classifyFinal "sent\r\nOK").1.success = true ∧
     (classifyFinal "sent\r\nOK").1.messageReference = "") ∧
    ((classifyFinal "+CMS ERROR: 500").1.success = false ∧
     (classifyFinal "+CMS ERROR: 500").1.error ≠ "") ∧
    ((classifyFinal "").1.success = true ∧ (classifyFinal "").1.error ≠ "") := by
  have h1 := (c1_final_classification "+CMGS: 42\r\nOK").1 "42".data (by decide)
  have h2 := (c1_final_classification "sent\r\nOK").2.1 (by decide) (by decide)
  have h3 :=
    (c1_final_classification "+CMS ERROR: 500").2.2.1 (by decide) (by decide) (by decide)
  have h4 := (c1_final_classification "").2.2.2 (by decide) (by decide) (by decide)
  exact ⟨⟨h1.1, h1.2.1⟩, h2, h3, h4⟩

/-! ## C8: signal-strength bucketing in `GetStatus` -/

/-- C8 counterexample: when `GetStatus` succeeds but the `AT+CSQ` response
carries no parseable `+CSQ: (\d+),` value, the produced `Status` has
`signal_strength_desc = ""`, which is not derived by the bucket mapping and
is none of weak/fair/good/excellent/unknown — refuting the claim that every
produced `Status` satisfies both. -/
theorem c8_counterexample :
    (getStatus badCsqPort).2 = none ∧
    (getStatus badCsqPort).1.signalStrengthDesc = "" ∧
    (getStatus badCsqPort).1.signalStrengthDesc ≠
      signalDesc (getStatus badCsqPort).1.signalStrength ∧
    ¬((getStatus badCsqPort).1.signalStrengthDesc = "weak" ∨
      (getStatus badCsqPort).1.signalStrengthDesc = "fair" ∨
      (getStatus badCsqPort).1.signalStrengthDesc = "good" ∨
      (getStatus badCsqPort).1.signalStrengthDesc = "excellent" ∨
      (getStatus badCsqPort).1.signalStrengthDesc = "unknown") := by
  refine ⟨rfl, rfl, ?_, ?_⟩ <;> decide

/-- C8 (amended): whenever `GetStatus` extracts an integer from the `AT+CSQ`
response, `signal_strength_desc` is derived from it by the bucket mapping
(99 → unknown, < 10 → weak, < 20 → fair, < 30 → good, else excellent — in
particular 5→weak, 15→fair, 25→good, 31→excellent, 99→unknown), and the
bucket mapping only produces those five values; when no integer is
extracted, `signal_strength` stays 0 and the description stays empty, so in
general the description is either empty or the bucket of
`signal_strength`. -/
theorem c8_signal_bucketing (p : StatusPort) :
    ((getStatus p).1.signalStrengthDesc = "" ∨
     (getStatus p).1.signalStrengthDesc =
       signalDesc (getStatus p).1.signalStrength) ∧
    (∀ v, (getStatus p).2 = none → csqExtract p.csqResp = some v →
      (getStatus p).1.signalStrength = v ∧
      (getStatus p).1.signalStrengthDesc = signalDesc v) ∧
    ((getStatus p).2 = none → csqExtract p.csqResp = none →
      (getStatus p).1.signalStrength = 0 ∧
      (getStatus p).1.signalStrengthDesc = "") ∧
    signalDesc 5 = "weak" ∧ signalDesc 15 = "fair" ∧ signalDesc 25 = "good" ∧
    signalDesc 31 = "excellent" ∧ signalDesc 99 = "unknown" ∧
    (∀ v, signalDesc v = "weak" ∨ signalDesc v = "fair" ∨
      signalDesc v = "good" ∨ signalDesc v = "excellent" ∨
      signalDesc v = "unknown") := by
  have hbucket : ∀ v, signalDesc v = "weak" ∨ signalDesc v = "fair" ∨
      signalDesc v = "good" ∨ signalDesc v = "excellent" ∨
      signalDesc v = "unknown" := by
    intro v
    unfold signalDesc
    split_ifs <;> simp
  refine ⟨?_, ?_, ?_, rfl, rfl, rfl, rfl, rfl, hbucket⟩
  · unfold getStatus
    by_cases h1 : p.openOk
    · rcases hat : p.atResp with _ | r
      · simp [h1, hat]
      · by_cases h2 : containsStr r "OK"
        · rcases hc : csqExtract p.csqResp with _ | v
          · simp [h1, hat, h2, hc]
          · simp [h1, hat, h2, hc]
        · simp [h1, hat, h2]
    · simp [h1]
  · intro v herr hcsq
    unfold getStatus at herr ⊢
    by_cases h1 : p.openOk
    · rcases hat : p.atResp with _ | r
      · simp [h1, hat] at herr
      · by_cases h2 : containsStr r "OK"
        · simp [h1, h2, hcsq]
        · simp [h1, h2, hat] at herr
    · simp [h1] at herr
  · intro herr hcsq
    unfold getStatus at herr ⊢
    by_cases h1 : p.openOk
    · rcases hat : p.atResp with _ | r
      · simp [h1, hat] at herr
      · by_cases h2 : containsStr r "OK"
        · simp [h1, h2, hcsq]
        · simp [h1, h2, hat] at herr
    · simp [h1] at herr

/-- C8 witness: the amended theorem applied to a port whose `AT+CSQ`
response reports signal quality 25. -/
theorem c8_witness :
    (getStatus goodCsqPort).1.signalStrength = 25 ∧
    (getStatus goodCsqPort).1.signalStrengthDesc = signalDesc 25 := by
  exact (c8_signal_bucketing goodCsqPort).2.1 25 rfl (by decide)

/-! ## C9: validation rejects empty arguments before any transport I/O -/

/-- C9: a `SendSMS` call with an empty phone number or an empty message
fails with a validation error before any transport I/O, on both variants:
the hardware variant returns a non-nil error and a failed result without
ever calling `openPort` or writing a byte, and the simulator returns a
non-nil error and a failed result (it performs no transport I/O at all). -/
theorem c9_validation_no_io (p : SmsPort) (n : Nat) (phone message : String)
    (h : phone = "" ∨ message = "") :
    (gsmSendSMS p phone message).err.isSome = true ∧
    (gsmSendSMS p phone message).result.success = false ∧
    (gsmSendSMS p phone message).openAttempted = false ∧
    (gsmSendSMS p phone message).writes = [] ∧
    (simSendSMS n phone message).2.1.isSome = true ∧
    (simSendSMS n phone message).1.success = false := by
  rcases h with h | h
  · subst h
    simp [gsmSendSMS, simSendSMS]
  · subst h
    by_cases hp : phone = ""
    · subst hp
      simp [gsmSendSMS, simSendSMS]
    · simp [gsmSendSMS, simSendSMS, hp]

/-- C9 witness: the theorem applied to `("", "x")` and `("x", "")` against a
fully healthy port. -/
theorem c9_witness :
    ((gsmSendSMS examplePort "" "x").writes = [] ∧
     (gsmSendSMS examplePort "" "x").openAttempted = false ∧
     (simSendSMS 0 "" "x").1.success = false) ∧
    ((gsmSendSMS examplePort "x" "").writes = [] ∧
     (gsmSendSMS examplePort "x" "").openAttempted = false ∧
     (simSendSMS 0 "x" "").1.success = false) := by
  have h1 := c9_validation_no_io examplePort 0 "" "x" (Or.inl rfl)
  have h2 := c9_validation_no_io examplePort 0 "x" "" (Or.inr rfl)
  exact ⟨⟨h1.2.2.2.1, h1.2.2.1, h1.2.2.2.2.2⟩, ⟨h2.2.2.2.1, h2.2.2.1, h2.2.2.2.2.2⟩⟩

/-! ## C10: the Go error is non-nil exactly when the result reports failure -/

/-- C10: on both modem variants, `SendSMS` returns a nil Go error exactly
when the returned `SendResult` has `success = true`; and on the
ambiguous-outcome path (all mandatory steps passed, message body written,
final response matched by none of `+CMGS`-with-digits / `"OK"` /
`"ERROR"`) the call returns a nil error, `success = true`, and a non-empty
warning in the result's error field. -/
theorem c10_error_iff_failure (p : SmsPort) (n : Nat) (phone message : String) :
    ((gsmSendSMS p phone message).err = none ↔
      (gsmSendSMS p phone message).result.success = true) ∧
    ((simSendSMS n phone message).2.1 = none ↔
      (simSendSMS n phone message).1.success = true) ∧
    (phone ≠ "" → message ≠ "" → p.openOk = true → p.atWriteOk = true →
     containsStr p.atResp "OK" = true → p.cmgfWriteOk = true →
     containsStr p.cmgfResp "OK" = true →
     cregFatal p.cregWriteOk p.cregResp = false → p.cmgsWriteOk = true →
     containsStr p.promptResp "ERROR" = false → p.bodyWriteOk = true →
     findCMGS p.finalResp.data = none → containsStr p.finalResp "OK" = false →
     containsStr p.finalResp "ERROR" = false →
     (gsmSendSMS p phone message).err = none ∧
     (gsmSendSMS p phone message).result.success = true ∧
     (gsmSendSMS p phone message).result.error ≠ "") := by
  refine ⟨?_, ?_, ?_⟩
  · unfold gsmSendSMS
    split_ifs <;> simp [classifyFinal_err_iff]
  · unfold simSendSMS
    split_ifs <;> simp
  · intro h1 h2 h3 h4 h5 h6 h7 h8 h9 h10 h11 h12 h13 h14
    simp [gsmSendSMS, h1, h2, h3, h4, h5, h6, h7, h8, h9, h10, h11,
      classifyFinal, h12, h13, h14]

/-- C10 witness: the theorem applied to the ambiguous-outcome port (empty
final response) and the simulator at counter 0. -/
theorem c10_witness :
    ((gsmSendSMS ambiguousPort "123" "hi").err = none ∧
     (gsmSendSMS ambiguousPort "123" "hi").result.success = true ∧
     (gsmSendSMS ambiguousPort "123" "hi").result.error ≠ "") ∧
    ((simSendSMS 0 "123" "hi").2.1 = none ↔
     (simSendSMS 0 "123" "hi").1.success = true) := by
  refine ⟨?_, (c10_error_iff_failure ambiguousPort 0 "123" "hi").2.1⟩
  exact (c10_error_iff_failure ambiguousPort 0 "123" "hi").2.2
    (by decide) (by decide) rfl rfl (by decide) rfl (by decide) (by decide)
    rfl (by decide) rfl (by decide) (by decide) (by decide)

/-! ## Lemmas about the heap and the store -/

theorem getElem?_append_of_some (h : List Job) (j x : Job) (a : Nat)
    (hx : h[a]? = some x) : (h ++ [j])[a]? = some x := by
  have hlt : a < h.length := (List.getElem?_eq_some_iff.mp hx).1
  simp [List.getElem?_append, hlt, hx]

theorem getElem?_append_self (h : List Job) (j : Job) :
    (h ++ [j])[h.length]? = some j := by
  simp [List.getElem?_append_right]

theorem getElem?_append_past (h : List Job) (j : Job) (a : Nat)
    (ha : h.length + 1 ≤ a) : (h ++ [j])[a]? = none := by
  apply List.getElem?_eq_none
  simpa using ha

theorem heapUpdate_length (h : List Job) (a : Nat) (f : Job → Job) :
    (heapUpdate h a f).length = h.length := by
  unfold heapUpdate
  split
  · exact List.length_set _ _ _
  · rfl

theorem heapUpdate_getElem_self (h : List Job) (a : Nat) (f : Job → Job)
    (j : Job) (hj : h[a]? = some j) : (heapUpdate h a f)[a]? = some (f j) := by
  unfold heapUpdate
  rw [hj]
  have hlt : a < h.length := (List.getElem?_eq_some_iff.mp hj).1
  rw [List.getElem?_set_self]
  simp [hlt]

theorem heapUpdate_getElem_ne (h : List Job) (a b : Nat) (f : Job → Job)
    (hne : a ≠ b) : (heapUpdate h a f)[b]? = h[b]? := by
  unfold heapUpdate
  split
  · rw [List.getElem?_set_ne hne]
  · rfl

theorem storeFind_none_iff (st : List (String × Nat)) (k : String) :
    storeFind st k = none ↔ ∀ q ∈ st, q.1 ≠ k := by
  unfold storeFind
  simp [List.find?_eq_none]

theorem storeSet_of_none (st : List (String × Nat)) (k : String) (v : Nat)
    (h : storeFind st k = none) : storeSet st k v = st ++ [(k, v)] := by
  unfold storeSet
  unfold storeFind at h
  rcases hf : st.find? (fun q => q.1 = k) with _ | q
  · rw [hf]
    simp
  · rw [hf] at h
    simp at h

theorem storeDel_of_none (st : List (String × Nat)) (k : String)
    (h : storeFind st k = none) : storeDel st k = st := by
  unfold storeDel
  rw [List.filter_eq_self.mpr]
  intro q hq
  have := (storeFind_none_iff st k).mp h q hq
  simpa using this

theorem storeDel_storeSet_of_none (st : List (String × Nat)) (k : String)
    (v : Nat) (h : storeFind st k = none) :
    storeDel (storeSet st k v) k = st := by
  rw [storeSet_of_none st k v h]
  unfold storeDel
  rw [List.filter_append]
  have h2 := storeDel_of_none st k h
  unfold storeDel at h2
  rw [h2]
  simp

theorem storeFind_storeDel_self (st : List (String × Nat)) (k : String) :
    storeFind (storeDel st k) k = none := by
  rw [storeFind_none_iff]
  intro q hq
  have := List.mem_filter.mp hq
  simpa using this.2

theorem mem_storeSet (st : List (String × Nat)) (k : String) (v : Nat)
    (q : String × Nat) (h : q ∈ storeSet st k v) : q ∈ st ∨ q = (k, v) := by
  unfold storeSet at h
  split at h
  · rcases List.mem_map.mp h with ⟨q0, hq0, hmap⟩
    by_cases hk : q0.1 = k
    · right
      rw [← hmap]
      simp [hk]
    · left
      rw [← hmap]
      simp only [if_neg hk]
      exact hq0
  · rcases List.mem_append.mp h with h | h
    · exact Or.inl h
    · right
      simpa using h

theorem mem_storeDel (st : List (String × Nat)) (k : String)
    (q : String × Nat) (h : q ∈ storeDel st k) : q ∈ st :=
  List.mem_of_mem_filter h

theorem enqueue_heap (s : QState) (phone message id : String) (t : Nat) :
    (enqueue s phone message id t).1.heap =
      s.heap ++ [newJob phone message id t] := by
  unfold enqueue
  split <;> rfl

theorem getJob_heap (s : QState) (id : String) : (getJob s id).1.heap = s.heap := by
  unfold getJob
  split
  · rfl
  · split
    · rfl
    · split <;> rfl

/-! ## Preservation of the queue invariant -/

theorem result_ok_append (s : QState) (hI : Inv s) (j0 : Job)
    (hj0 : j0.result.isSome = true ↔ (j0.status = .sent ∨ j0.status = .failed)) :
    ∀ (a : Nat) (j : Job), (s.heap ++ [j0])[a]? = some j →
      (j.result.isSome = true ↔ (j.status = .sent ∨ j.status = .failed)) := by
  intro a j hj
  rcases Nat.lt_trichotomy a s.heap.length with hlt | heq | hgt
  · simp only [List.getElem?_append, if_pos hlt] at hj
    exact hI.result_ok a j hj
  · subst heq
    rw [getElem?_append_self] at hj
    injection hj with hj
    subst hj
    exact hj0
  · rw [getElem?_append_past s.heap j0 a (by omega)] at hj
    exact absurd hj (by simp)

theorem inv_enqueue (s : QState) (phone message id : String) (t : Nat)
    (hI : Inv s) : Inv (enqueue s phone message id t).1 := by
  have hnew : (newJob phone message id t).result.isSome = true ↔
      ((newJob phone message id t).status = .sent ∨
       (newJob phone message id t).status = .failed) := by
    simp [newJob]
  unfold enqueue
  dsimp only
  split
  · constructor
    · intro a ha
      rcases List.mem_append.mp ha with ha | ha
      · obtain ⟨j, hj, hq⟩ := hI.buf_ok a ha
        exact ⟨j, getElem?_append_of_some _ _ _ _ hj, hq⟩
      · have : a = s.heap.length := by simpa using ha
        subst this
        exact ⟨newJob phone message id t, getElem?_append_self _ _, rfl⟩
    · intro a hw
      obtain ⟨j, hj, hs⟩ := hI.worker_ok a hw
      exact ⟨j, getElem?_append_of_some _ _ _ _ hj, hs⟩
    · intro a hw hmem
      obtain ⟨j, hj, _⟩ := hI.worker_ok a hw
      have hlt : a < s.heap.length := (List.getElem?_eq_some_iff.mp hj).1
      rcases List.mem_append.mp hmem with hm | hm
      · exact hI.worker_not_buf a hw hm
      · have : a = s.heap.length := by simpa using hm
        omega
    · rw [List.nodup_append]
      refine ⟨hI.buf_nodup, List.nodup_singleton _, ?_⟩
      intro a ha hb
      obtain ⟨j, hj, _⟩ := hI.buf_ok a ha
      have hlt : a < s.heap.length := (List.getElem?_eq_some_iff.mp hj).1
      have : a = s.heap.length := by simpa using hb
      omega
    · intro q hq
      rcases mem_storeSet _ _ _ _ hq with hq | hq
      · have := hI.store_ok q hq
        simp
        omega
      · subst hq
        simp
    · exact result_ok_append s hI _ hnew
  · constructor
    · intro a ha
      obtain ⟨j, hj, hq⟩ := hI.buf_ok a ha
      exact ⟨j, getElem?_append_of_some _ _ _ _ hj, hq⟩
    · intro a hw
      obtain ⟨j, hj, hs⟩ := hI.worker_ok a hw
      exact ⟨j, getElem?_append_of_some _ _ _ _ hj, hs⟩
    · exact fun a hw => hI.worker_not_buf a hw
    · exact hI.buf_nodup
    · intro q hq
      rcases mem_storeSet _ _ _ _ (mem_storeDel _ _ _ hq) with hq2 | hq2
      · have := hI.store_ok q hq2
        simp
        omega
      · subst hq2
        simp
    · exact result_ok_append s hI _ hnew

theorem inv_workerStart (s : QState) (t : Nat) (hI : Inv s) :
    Inv (workerStart s t) := by
  unfold workerStart
  split
  · exact hI
  · rename_i a rest hjobs
    obtain ⟨j, hj, hq⟩ := hI.buf_ok a (by rw [hjobs]; exact List.mem_cons_self a rest)
    have hnd := hI.buf_nodup
    rw [hjobs, List.nodup_cons] at hnd
    constructor
    · intro b hb
      obtain ⟨j', hj', hq'⟩ := hI.buf_ok b (by rw [hjobs]; exact List.mem_cons_of_mem a hb)
      have hab : a ≠ b := fun h => hnd.1 (h ▸ hb)
      exact ⟨j', by rw [heapUpdate_getElem_ne _ _ _ _ hab]; exact hj', hq'⟩
    · intro b hb
      injection hb with hb
      subst hb
      exact ⟨_, heapUpdate_getElem_self _ _ _ _ hj, rfl⟩
    · intro b hb
      injection hb with hb
      subst hb
      exact hnd.1
    · exact hnd.2
    · intro q hq
      rw [heapUpdate_length]
      exact hI.store_ok q hq
    · intro b j' hj'
      by_cases hab : a = b
      · subst hab
        rw [heapUpdate_getElem_self _ _ _ _ hj] at hj'
        injection hj' with hj'
        subst hj'
        have hres := hI.result_ok a j hj
        rw [hq] at hres
        simp at hres
        simp [hres]
      · rw [heapUpdate_getElem_ne _ _ _ _ hab] at hj'
        exact hI.result_ok b j' hj'

theorem inv_workerFinish (s : QState) (res : SendResult) (err : Option String)
    (t : Nat) (hI : Inv s) : Inv (workerFinish s res err t) := by
  unfold workerFinish
  split
  · exact hI
  · rename_i a hw
    obtain ⟨j, hj, hs⟩ := hI.worker_ok a hw
    constructor
    · intro b hb
      obtain ⟨j', hj', hq'⟩ := hI.buf_ok b hb
      have hab : a ≠ b := fun h => hI.worker_not_buf a hw (h ▸ hb)
      exact ⟨j', by rw [heapUpdate_getElem_ne _ _ _ _ hab]; exact hj', hq'⟩
    · intro b hb
      exact absurd hb (by simp)
    · intro b hb
      exact absurd hb (by simp)
    · exact hI.buf_nodup
    · intro q hq
      rw [heapUpdate_length]
      exact hI.store_ok q hq
    · intro b j' hj'
      by_cases hab : a = b
      · subst hab
        rw [heapUpdate_getElem_self _ _ _ _ hj] at hj'
        injection hj' with hj'
        subst hj'
        rcases err with _ | e <;> simp
      · rw [heapUpdate_getElem_ne _ _ _ _ hab] at hj'
        exact hI.result_ok b j' hj'

theorem inv_getJob (s : QState) (id : String) (hI : Inv s) :
    Inv (getJob s id).1 := by
  unfold getJob
  split
  · exact hI
  · split
    · exact hI
    · split
      · exact
          { buf_ok := hI.buf_ok
            worker_ok := hI.worker_ok
            worker_not_buf := hI.worker_not_buf
            buf_nodup := hI.buf_nodup
            store_ok := fun q hq => hI.store_ok q (mem_storeDel _ _ _ hq)
            result_ok := hI.result_ok }
      · exact hI

theorem inv_cleanup (s : QState) (cutoff : Nat) (hI : Inv s) :
    Inv (cleanupPass s cutoff) := by
  exact
    { buf_ok := hI.buf_ok
      worker_ok := hI.worker_ok
      worker_not_buf := hI.worker_not_buf
      buf_nodup := hI.buf_nodup
      store_ok := fun q hq => hI.store_ok q (List.mem_of_mem_filter hq)
      result_ok := hI.result_ok }

theorem inv_init (capacity : Nat) : Inv (initQ capacity) := by
  constructor <;> simp [initQ]

/-- Every reachable queue state satisfies the invariant. -/
theorem reachable_inv (s : QState) (h : Reachable s) : Inv s := by
  induction h with
  | init capacity => exact inv_init capacity
  | step s s' _ hstep ih =>
    cases hstep with
    | enq phone message id t => exact inv_enqueue s phone message id t ih
    | start t hw => exact inv_workerStart s t ih
    | finish res err t => exact inv_workerFinish s res err t ih
    | getStep id => exact inv_getJob s id ih
    | clean cutoff => exact inv_cleanup s cutoff ih

/-! ## C2: a stored job carries a result exactly when it is terminal -/

/-- C2: in every reachable queue state, every job reachable through the
store has its `result` present exactly when its status is `sent` or
`failed`; `Enqueue` creates jobs as `queued` with no result, the `sending`
transition attaches none, and the terminal transition attaches one in the
same step (these transitions are the `QStep` relation, over which
reachability is closed). -/
theorem c2_result_iff_terminal (s : QState) (hr : Reachable s)
    (id : String) (a : Nat) (j : Job)
    (_hmem : (id, a) ∈ s.store) (hj : s.heap[a]? = some j) :
    j.result.isSome = true ↔ (j.status = .sent ∨ j.status = .failed) :=
  (reachable_inv s hr).result_ok a j hj

/-- C2 witness: the theorem applied to the reachable state holding the
queued job `"x"`. -/
theorem c2_witness :
    exJobQ.result.isSome = true ↔
      (exJobQ.status = .sent ∨ exJobQ.status = .failed) := by
  refine c2_result_iff_terminal exFreeState ?_ "x" 0 exJobQ (by decide) (by decide)
  exact Reachable.step _ _ (Reachable.init 2) (QStep.enq (initQ 2) "p" "m" "x" 0)

/-! ## C3: job status is monotonic along every queue step -/

theorem status_step_refl (h : List Job) (a : Nat) :
    (∀ j j' : Job, h[a]? = some j → h[a]? = some j' →
      (j'.status = j.status ∨
       (j.status = .queued ∧ j'.status = .sending) ∨
       (j.status = .sending ∧ (j'.status = .sent ∨ j'.status = .failed)))) ∧
    (∀ j' : Job, h[a]? = none → h[a]? = some j' → j'.status = .queued) := by
  constructor
  · intro j j' hj hj'
    rw [hj] at hj'
    injection hj' with e
    subst e
    exact Or.inl rfl
  · intro j' hn hj'
    rw [hn] at hj'
    exact absurd hj' (by simp)

/-- C3: along every step of the queue from a reachable state, each job
object's status either stays the same, moves `queued → sending`, or moves
`sending → sent/failed`; and every job created by the step starts as
`queued`.  In particular no step moves a status backward, skips `sending`,
or leaves a terminal state. -/
theorem c3_status_monotonic (s s' : QState) (hr : Reachable s)
    (hstep : QStep s s') (a : Nat) :
    (∀ j j', s.heap[a]? = some j → s'.heap[a]? = some j' →
      (j'.status = j.status ∨
       (j.status = .queued ∧ j'.status = .sending) ∨
       (j.status = .sending ∧ (j'.status = .sent ∨ j'.status = .failed)))) ∧
    (∀ j', s.heap[a]? = none → s'.heap[a]? = some j' → j'.status = .queued) := by
  have hI := reachable_inv s hr
  cases hstep with
  | enq phone message id t =>
    rw [enqueue_heap]
    constructor
    · intro j j' hj hj'
      rw [getElem?_append_of_some _ _ _ _ hj] at hj'
      injection hj' with e
      subst e
      exact Or.inl rfl
    · intro j' hnone hj'
      have hge : s.heap.length ≤ a := by
        by_contra hlt
        push_neg at hlt
        obtain ⟨x, hx⟩ : ∃ x, s.heap[a]? = some x :=
          ⟨s.heap[a], List.getElem?_eq_getElem hlt⟩
        rw [hnone] at hx
        exact absurd hx (by simp)
      rcases Nat.eq_or_lt_of_le hge with heq | hgt
      · rw [← heq] at hj'
        rw [getElem?_append_self] at hj'
        injection hj' with e
        rw [← e]
        rfl
      · rw [getElem?_append_past _ _ _ (by omega)] at hj'
        exact absurd hj' (by simp)
  | start t hw =>
    unfold workerStart
    split
    · exact status_step_refl s.heap a
    · rename_i b rest hjobs
      obtain ⟨jb, hjb, hqb⟩ :=
        hI.buf_ok b (by rw [hjobs]; exact List.mem_cons_self b rest)
      constructor
      · intro j j' hj hj'
        by_cases hba : b = a
        · subst hba
          have hjjb : j = jb := Option.some.inj (hj.symm.trans hjb)
          subst hjjb
          rw [heapUpdate_getElem_self _ _ _ _ hj] at hj'
          injection hj' with e
          subst e
          exact Or.inr (Or.inl ⟨hqb, rfl⟩)
        · rw [heapUpdate_getElem_ne _ _ _ _ hba, hj] at hj'
          injection hj' with e
          subst e
          exact Or.inl rfl
      · intro j' hnone hj'
        by_cases hba : b = a
        · subst hba
          rw [hjb] at hnone
          exact absurd hnone (by simp)
        · rw [heapUpdate_getElem_ne _ _ _ _ hba, hnone] at hj'
          exact absurd hj' (by simp)
  | finish res err t =>
    unfold workerFinish
    split
    · exact status_step_refl s.heap a
    · rename_i b hw
      obtain ⟨jb, hjb, hsb⟩ := hI.worker_ok b hw
      constructor
      · intro j j' hj hj'
        by_cases hba : b = a
        · subst hba
          have hjjb : j = jb := Option.some.inj (hj.symm.trans hjb)
          subst hjjb
          rw [heapUpdate_getElem_self _ _ _ _ hj] at hj'
          injection hj' with e
          subst e
          refine Or.inr (Or.inr ⟨hsb, ?_⟩)
          rcases err with _ | e <;> simp
        · rw [heapUpdate_getElem_ne _ _ _ _ hba, hj] at hj'
          injection hj' with e
          subst e
          exact Or.inl rfl
      · intro j' hnone hj'
        by_cases hba : b = a
        · subst hba
          rw [hjb] at hnone
          exact absurd hnone (by simp)
        · rw [heapUpdate_getElem_ne _ _ _ _ hba, hnone] at hj'
          exact absurd hj' (by simp)
  | getStep id =>
    rw [getJob_heap]
    exact status_step_refl s.heap a
  | clean cutoff =>
    exact status_step_refl s.heap a

/-- C3 witness: the theorem applied to the worker picking up the queued job
`"x"` from a reachable state. -/
theorem c3_witness :
    exJobS.status = exJobQ.status ∨
    (exJobQ.status = .queued ∧ exJobS.status = .sending) ∨
    (exJobQ.status = .sending ∧
      (exJobS.status = .sent ∨ exJobS.status = .failed)) := by
  have hr : Reachable exFreeState :=
    Reachable.step _ _ (Reachable.init 2) (QStep.enq (initQ 2) "p" "m" "x" 0)
  have hs : QStep exFreeState (workerStart exFreeState 1) :=
    QStep.start exFreeState 1 rfl
  exact (c3_status_monotonic exFreeState (workerStart exFreeState 1) hr hs 0).1
    exJobQ exJobS (by decide) (by decide)

/-! ## C4: `Enqueue` with free capacity -/

/-- C4 counterexample: `generateID` performs no collision check against the
live store, so when the freshly generated ID equals the ID of a job already
stored (here `"x"`), `Enqueue` on a queue with free buffer capacity
overwrites the existing entry: the returned job's ID is not distinct from
every stored ID and the store's size stays 1 instead of increasing by
exactly one — refuting the unconditional claim. -/
theorem c4_counterexample :
    Reachable exFreeState ∧
    exFreeState.jobs.length < exFreeState.capacity ∧
    exFreeState.store = [("x", 0)] ∧
    (enqueue exFreeState "q" "n" "x" 1).2.1 = some (newJob "q" "n" "x" 1) ∧
    (enqueue exFreeState "q" "n" "x" 1).1.store.length = 1 ∧
    ¬((enqueue exFreeState "q" "n" "x" 1).1.store.length =
        exFreeState.store.length + 1) := by
  refine ⟨Reachable.step _ _ (Reachable.init 2)
    (QStep.enq (initQ 2) "p" "m" "x" 0), ?_, ?_, ?_, ?_, ?_⟩ <;> decide

/-- C4 (amended): an `Enqueue` call while the admission buffer has free
capacity, *provided the freshly generated ID does not collide with the ID
of any job already in the store* (which the code does not check), returns
`true` together with a job whose status is `queued` and whose ID is the
fresh one, and the store's size increases by exactly one. -/
theorem c4_enqueue_fresh_id (s : QState) (phone message id : String) (t : Nat)
    (hcap : s.jobs.length < s.capacity)
    (hfresh : storeFind s.store id = none) :
    (enqueue s phone message id t).2.2 = true ∧
    (enqueue s phone message id t).2.1 = some (newJob phone message id t) ∧
    (newJob phone message id t).status = .queued ∧
    (enqueue s phone message id t).1.store.length = s.store.length + 1 := by
  unfold enqueue
  dsimp only
  rw [if_pos hcap]
  refine ⟨rfl, rfl, rfl, ?_⟩
  dsimp only
  rw [storeSet_of_none _ _ _ hfresh]
  simp

/-- C4 witness: the amended theorem applied to an empty queue of capacity 2
and the fresh ID `"y"`. -/
theorem c4_witness :
    (enqueue (initQ 2) "p" "m" "y" 0).2.2 = true ∧
    (enqueue (initQ 2) "p" "m" "y" 0).1.store.length =
      (initQ 2).store.length + 1 := by
  have h := c4_enqueue_fresh_id (initQ 2) "p" "m" "y" 0 (by decide) (by decide)
  exact ⟨h.1, h.2.2.2⟩

/-! ## C5: `Enqueue` with a full admission buffer -/

/-- C5 counterexample: with the admission buffer full and a generated ID
colliding with the stored job `"x"`, `Enqueue` first overwrites the store
entry and then deletes the key on rejection, so the previously stored job
is lost: the store is *not* unchanged — refuting the unconditional claim. -/
theorem c5_counterexample :
    Reachable exFullState ∧
    exFullState.capacity ≤ exFullState.jobs.length ∧
    exFullState.store = [("x", 0)] ∧
    (enqueue exFullState "q" "n" "x" 1).2.2 = false ∧
    (enqueue exFullState "q" "n" "x" 1).1.store = [] ∧
    ¬((enqueue exFullState "q" "n" "x" 1).1.store = exFullState.store) := by
  refine ⟨Reachable.step _ _ (Reachable.init 1)
    (QStep.enq (initQ 1) "p" "m" "x" 0), ?_, ?_, ?_, ?_, ?_⟩ <;> decide

/-- C5 (amended): an `Enqueue` call while the admission buffer is full,
*provided the freshly generated ID does not collide with the ID of any job
already in the store* (which the code does not check), reports rejection
(`nil` job, `false` — not an error value) and leaves the store and the
buffer exactly unchanged, so no rejected job is ever observable via `Get`. -/
theorem c5_enqueue_full_fresh (s : QState) (phone message id : String) (t : Nat)
    (hcap : s.capacity ≤ s.jobs.length)
    (hfresh : storeFind s.store id = none) :
    (enqueue s phone message id t).2.2 = false ∧
    (enqueue s phone message id t).2.1 = none ∧
    (enqueue s phone message id t).1.store = s.store ∧
    (enqueue s phone message id t).1.jobs = s.jobs := by
  unfold enqueue
  dsimp only
  rw [if_neg (by omega)]
  exact ⟨rfl, rfl, storeDel_storeSet_of_none _ _ _ hfresh, rfl⟩

/-- C5 witness: the amended theorem applied to the full queue holding job
`"x"` and the fresh ID `"y"`. -/
theorem c5_witness :
    (enqueue exFullState "q" "n" "y" 1).2.2 = false ∧
    (enqueue exFullState "q" "n" "y" 1).1.store = exFullState.store := by
  have h := c5_enqueue_full_fresh exFullState "q" "n" "y" 1 (by decide) (by decide)
  exact ⟨h.1, h.2.2.1⟩

/-! ## C6: `Get` on a terminal job returns a copy and reclaims the record -/

/-- C6: `Get` on the ID of a job in a terminal state (`sent` or `failed`)
returns the job record (a by-value copy — the model's store holds values,
mirroring the deep copy the code makes of the record and its result, so the
caller's copy shares no mutable state with the store) and deletes the store
entry as a side effect, so a second `Get` with the same ID reports
not-found. -/
theorem c6_get_terminal_deletes (s : QState) (id : String) (a : Nat) (j : Job)
    (hfind : storeFind s.store id = some a) (hj : s.heap[a]? = some j)
    (hterm : j.status = .sent ∨ j.status = .failed) :
    (getJob s id).2 = some j ∧
    storeFind (getJob s id).1.store id = none ∧
    (getJob (getJob s id).1 id).2 = none := by
  have htb : isTerminal j.status = true := by
    rcases hterm with h | h <;> simp [isTerminal, h]
  have h1 : getJob s id = ({ s with store := storeDel s.store id }, some j) := by
    simp [getJob, hfind, hj, htb]
  rw [h1]
  refine ⟨rfl, storeFind_storeDel_self s.store id, ?_⟩
  unfold getJob
  rw [show storeFind ({ s with store := storeDel s.store id } : QState).store id
      = none from storeFind_storeDel_self s.store id]

/-- C6 witness: the theorem applied to the reachable state whose job `"x"`
is `sent`. -/
theorem c6_witness :
    (getJob exDoneState "x").2 = some exDoneJob ∧
    storeFind (getJob exDoneState "x").1.store "x" = none ∧
    (getJob (getJob exDoneState "x").1 "x").2 = none := by
  exact c6_get_terminal_deletes exDoneState "x" 0 exDoneJob (by decide)
    (by decide) (Or.inl (by decide))

/-! ## C7: one cleanup pass deletes exactly the old terminal jobs -/

theorem isTerminal_iff (st : JobStatus) :
    isTerminal st = true ↔ (st = .sent ∨ st = .failed) := by
  cases st <;> simp [isTerminal]

/-- C7: one pass of the cleanup sweep keeps a store entry exactly when its
job is not both terminal (`sent` or `failed`) and strictly older than the
retention cutoff; equivalently it deletes exactly the old terminal jobs —
never a `queued` or `sending` one, and every terminal job whose
`updated_at` precedes the cutoff. -/
theorem c7_cleanup_exact (s : QState) (cutoff : Nat) (id : String) (a : Nat)
    (j : Job) (hmem : (id, a) ∈ s.store) (hj : s.heap[a]? = some j) :
    ((id, a) ∈ (cleanupPass s cutoff).store ↔
      ¬((j.status = .sent ∨ j.status = .failed) ∧ j.updatedAt < cutoff)) := by
  unfold cleanupPass
  dsimp only
  rw [List.mem_filter]
  simp [hmem, hj, isTerminal_iff]
  rw [← isTerminal_iff]
  rcases Bool.eq_false_or_eq_true (isTerminal j.status) with h | h <;> simp [h]

/-- C7 witness: the theorem applied to the state whose job `"x"` was sent
at time 2, with cutoff 5: the entry is swept. -/
theorem c7_witness :
    ("x", 0) ∈ (cleanupPass exDoneState 5).store ↔
      ¬((exDoneJob.status = .sent ∨ exDoneJob.status = .failed) ∧
        exDoneJob.updatedAt < 5) := by
  exact c7_cleanup_exact exDoneState 5 "x" 0 exDoneJob (by decide) (by decide)

end SmsGateway
